import Mathlib

/-!
Shallow embedding of `gcode.py` (class `GCodeChecker`) from the gcode-checker
repository, together with proofs settling the frozen claims about it.

Modelling conventions:
* Python strings are modelled as `List Char`; `str` injects Lean string
  literals.  `str.upper()` / `str.lower()` / `str.strip()` become `upper`,
  `lower`, `strip` (ASCII case mapping, the whitespace set of `str.strip`).
* Python `float` values are modelled as exact rationals (`ℚ`); `\d` in the
  regular expressions is modelled as the ASCII digits.
* The regular-expression searches used by the source
  (`re.search(f'{axis}([+-]?\d*\.?\d+)', ...)`, `re.search(r'O(\d+)', ...)`,
  `re.search(r'P(\d+)', ...)`, `re.search(r'F(\d*\.?\d+)', ...)`,
  `re.match(r'^[GM]\d+', ...)` etc.) are implemented directly as leftmost
  scans with the (backtracking-resolved) shape of each pattern.
* Diagnostic messages are modelled by the inductive `Msg`, one constructor
  per f-string template of the source, carrying the interpolated payloads.
  The templates are pairwise distinct, so this rendering is injective.
* The file system is a function `Fs` from path to the list of the file's
  lines (`none` = the path does not exist); `os.path.dirname`,
  `os.path.join` and `os.path.splitext` follow `posixpath`.
* `analyze_file` recurses into subprogram files without any cycle guard; the
  embedding uses a fuel parameter, `none` meaning the computation did not
  finish within the given fuel.  `analyze_file` is only ever invoked on a
  freshly constructed checker (`main()` and
  `auto_detect_and_analyze_subprograms` both construct a fresh
  `GCodeChecker`), so the embedding bakes in the fresh initial state.
-/

namespace GCodeSpec

/-- Characters of a Lean string literal, used to write Python strings. -/
def str (s : String) : List Char := s.data

/-- The whitespace characters removed by Python's `str.strip()`. -/
def isPySpace (c : Char) : Bool :=
  c = ' ' || c = '\t' || c = '\n' || c = '\r' || c.toNat = 11 || c.toNat = 12

/-- Python `str.strip()`. -/
def strip (s : List Char) : List Char :=
  ((s.dropWhile isPySpace).reverse.dropWhile isPySpace).reverse

/-- Python `str.upper()` (ASCII). -/
def upper (s : List Char) : List Char := s.map Char.toUpper

/-- Python `str.lower()` (ASCII). -/
def lower (s : List Char) : List Char := s.map Char.toLower

/-- Whether `pat` occurs at the start of `l`. -/
def startsWithSeq : List Char → List Char → Bool
  | [], _ => true
  | _ :: _, [] => false
  | p :: ps, c :: cs => p = c && startsWithSeq ps cs

/-- Python substring containment `pat in l`. -/
def containsSub (pat : List Char) : List Char → Bool
  | [] => pat.isEmpty
  | c :: rest => startsWithSeq pat (c :: rest) || containsSub pat rest

/-- First character test (Python `line.startswith(ch)` for one character). -/
def headIs (ch : Char) (l : List Char) : Bool := l.headD ' ' = ch

/-- `re.match(r'^[AB]\d+', l)`: first char is `a` or `b`, second a digit. -/
def startsLetterDigit (a b : Char) (l : List Char) : Bool :=
  match l with
  | c :: d :: _ => (c = a || c = b) && d.isDigit
  | _ => false

/-- `re.match(r'^[XYZIJKR]', l)`. -/
def startsAxisParam (l : List Char) : Bool :=
  match l with
  | c :: _ => c = 'X' || c = 'Y' || c = 'Z' || c = 'I' || c = 'J' || c = 'K' || c = 'R'
  | [] => false

/-- Greedy match of `\d*\.?\d+` at the start of `t` (the backtracking of the
Python engine resolved: an optional integer part, then either a dot followed
by at least one digit, or — when the dot cannot be completed — just the
integer part).  Returns the matched characters. -/
def matchUnsigned (t : List Char) : Option (List Char) :=
  let d1 := t.takeWhile Char.isDigit
  match t.drop d1.length with
  | '.' :: v =>
    let d2 := v.takeWhile Char.isDigit
    if d2.isEmpty then (if d1.isEmpty then none else some d1)
    else some (d1 ++ '.' :: d2)
  | _ => if d1.isEmpty then none else some d1

/-- Greedy match of `[+-]?\d*\.?\d+` at the start of a list. -/
def matchSigned : List Char → Option (List Char)
  | '+' :: t => (matchUnsigned t).map (fun g => '+' :: g)
  | '-' :: t => (matchUnsigned t).map (fun g => '-' :: g)
  | t => matchUnsigned t

/-- `re.search(f'{axis}([+-]?\d*\.?\d+)', l)`: leftmost occurrence of the
axis letter that is immediately followed by a signed decimal number; the
captured group. -/
def searchAxisNumber (axis : Char) : List Char → Option (List Char)
  | [] => none
  | c :: rest =>
    if c = axis then
      match matchSigned rest with
      | some g => some g
      | none => searchAxisNumber axis rest
    else searchAxisNumber axis rest

/-- `re.search(f'{letter}(\d+)', l)`: leftmost occurrence of the letter
followed by at least one digit; the captured digit run. -/
def searchLetterDigits (letter : Char) : List Char → Option (List Char)
  | [] => none
  | c :: rest =>
    if c = letter && (rest.headD ' ').isDigit then some (rest.takeWhile Char.isDigit)
    else searchLetterDigits letter rest

/-- `re.search(r'F(\d*\.?\d+)', l)`: leftmost `F` immediately followed by an
unsigned decimal number; the captured group. -/
def searchFNumber : List Char → Option (List Char)
  | [] => none
  | c :: rest =>
    if c = 'F' then
      match matchUnsigned rest with
      | some g => some g
      | none => searchFNumber rest
    else searchFNumber rest

/-- Value of a run of decimal digits. -/
def digitsVal (l : List Char) : Nat :=
  l.foldl (fun a c => 10 * a + (c.toNat - 48)) 0

/-- Python `float` on an unsigned captured group (`digits`, `digits.digits`
or `.digits`), as an exact rational. -/
def parseUnsigned (g : List Char) : ℚ :=
  let ip := g.takeWhile (fun c => c ≠ '.')
  match g.drop ip.length with
  | _ :: fp => (digitsVal ip : ℚ) + (digitsVal fp : ℚ) / ((10 : ℚ) ^ fp.length)
  | [] => (digitsVal ip : ℚ)

/-- Python `float` on a captured group with an optional sign. -/
def parseFloat : List Char → ℚ
  | '+' :: t => parseUnsigned t
  | '-' :: t => - parseUnsigned t
  | t => parseUnsigned t

/-- Diagnostic messages, one constructor per f-string template of the
source (`GCodeChecker`), carrying the interpolated payloads:
`invalidFormat` = "Invalid command format: {line}",
`coordExceeds`  = "{axis} coordinate {v} exceeds typical travel range",
`highFeed`      = "High feed rate: {v} mm/min",
`invalidFeed`   = "Invalid feed rate: {v}",
`subNotDefined` = "Subprogram P{n} called but not defined",
`subNotCalled`  = "Subprogram O{n} defined but never called",
`badExtension`  = "File extension '{ext}' may not be standard G-code format",
`fileNotFound`  = "File not found: {filename}",
`readError`     = "Error reading file: {e}",
`subPrefixed`   = "Subprogram {name}: {msg}". -/
inductive Msg where
  | invalidFormat (line : List Char)
  | coordExceeds (axis : Char) (v : ℚ)
  | highFeed (v : ℚ)
  | invalidFeed (v : ℚ)
  | subNotDefined (n : List Char)
  | subNotCalled (n : List Char)
  | badExtension (ext : List Char)
  | fileNotFound (filename : List Char)
  | readError
  | subPrefixed (file : List Char) (m : Msg)
deriving DecidableEq, Repr

/-- The mutable state of one `GCodeChecker` instance (`__init__`).  The
unused `self.subprograms` dictionary (written nowhere after `__init__`) is
omitted. -/
structure Checker where
  x_positions : List ℚ
  y_positions : List ℚ
  z_positions : List ℚ
  current_x : ℚ
  current_y : ℚ
  current_z : ℚ
  errors : List Msg
  warnings : List Msg
  commands : List (Nat × List Char)
  main_programs : List (List Char)
  program_calls : List (List Char)
deriving DecidableEq, Repr

/-- A freshly constructed `GCodeChecker()`. -/
def initChecker : Checker :=
  { x_positions := [], y_positions := [], z_positions := []
    current_x := 0, current_y := 0, current_z := 0
    errors := [], warnings := [], commands := []
    main_programs := [], program_calls := [] }

/-- `self.errors.append(m)`. -/
def pushError (s : Checker) (m : Msg) : Checker :=
  { s with errors := s.errors ++ [m] }

/-- `self.warnings.append(m)`. -/
def pushWarning (s : Checker) (m : Msg) : Checker :=
  { s with warnings := s.warnings ++ [m] }

/-- `GCodeChecker.parse_coordinate`: extract the coordinate value for the
given axis from `line.upper()`, or `None`. -/
def parse_coordinate (line : List Char) (axis : Char) : Option ℚ :=
  (searchAxisNumber axis (upper line)).map parseFloat

/-- The `O<number>` detection of `GCodeChecker.check_program_structure`
on the upper-cased stripped line: the captured program number when the line
matches `^O\d+`. -/
def o_program (lu : List Char) : Option (List Char) :=
  if startsLetterDigit 'O' 'O' lu then searchLetterDigits 'O' lu else none

/-- The `M98 P<number>` detection of `GCodeChecker.check_program_structure`
on the upper-cased stripped line: the captured subprogram number when the
line contains the substring `M98` and a `P` followed by digits. -/
def m98_call (lu : List Char) : Option (List Char) :=
  if containsSub (str "M98") lu && lu.contains 'P' then searchLetterDigits 'P' lu else none

/-- `GCodeChecker.check_program_structure` (the `%`, `M99` and `M30`/`M02`
branches of the source only `return` and mutate nothing, so they do not
appear).  The program number is appended only when absent (set semantics);
the call number is always appended (sequence semantics). -/
def check_program_structure (line : List Char) (s : Checker) : Checker :=
  let lu := strip (upper line)
  let mp :=
    match o_program lu with
    | some prog => if prog ∈ s.main_programs then s.main_programs else s.main_programs ++ [prog]
    | none => s.main_programs
  { s with main_programs := mp, program_calls := s.program_calls ++ (m98_call lu).toList }

/-- The blank/comment test of `GCodeChecker.check_syntax` on the stripped
upper-cased line: empty, or starting with `;` or `(`. -/
def ignorable (l : List Char) : Bool := l.isEmpty || headIs ';' l || headIs '(' l

/-- `GCodeChecker.check_syntax`: classify the line, run
`check_program_structure`, and record an "Invalid command format" error
when the line matches none of the recognized shapes.  Returns the Boolean
result of the Python method together with the updated state. -/
def check_line (line : List Char) (s : Checker) : Bool × Checker :=
  let l := upper (strip line)
  if ignorable l then (true, s)
  else
    let s := check_program_structure l s
    if startsLetterDigit 'G' 'M' l then (true, s)
    else if startsAxisParam l || headIs 'F' l || headIs 'S' l || headIs 'T' l
        || headIs 'N' l || startsLetterDigit 'O' 'P' l then (true, s)
    else (false, pushError s (Msg.invalidFormat l))

/-- `GCodeChecker.check_coordinates`: update the current position from the
axis values present on the line (sticky/modal), record a snapshot into the
three position traces, then warn for each axis whose absolute position
exceeds 1000. -/
def check_coordinates (line : List Char) (s : Checker) : Checker :=
  let cx := (parse_coordinate line 'X').getD s.current_x
  let cy := (parse_coordinate line 'Y').getD s.current_y
  let cz := (parse_coordinate line 'Z').getD s.current_z
  let s := { s with current_x := cx, current_y := cy, current_z := cz
                    x_positions := s.x_positions ++ [cx]
                    y_positions := s.y_positions ++ [cy]
                    z_positions := s.z_positions ++ [cz] }
  let s := if 1000 < |s.current_x| then pushWarning s (Msg.coordExceeds 'X' s.current_x) else s
  let s := if 1000 < |s.current_y| then pushWarning s (Msg.coordExceeds 'Y' s.current_y) else s
  if 1000 < |s.current_z| then pushWarning s (Msg.coordExceeds 'Z' s.current_z) else s

/-- The feed value read by `GCodeChecker.check_feed_rate`: requires an `F`
somewhere in the upper-cased line and a leftmost `F(\d*\.?\d+)` match. -/
def feed_value (line : List Char) : Option ℚ :=
  if (upper line).contains 'F' then (searchFNumber (upper line)).map parseFloat else none

/-- `GCodeChecker.check_feed_rate`: values above 10000 warn, values ≤ 0
error, anything else passes. -/
def check_feed_rate (line : List Char) (s : Checker) : Checker :=
  match feed_value line with
  | some v =>
    if 10000 < v then pushWarning s (Msg.highFeed v)
    else if v ≤ 0 then pushError s (Msg.invalidFeed v)
    else s
  | none => s

/-- Whether the stripped line mentions one of the coordinate letters
(`any(axis in line.upper() for axis in ['X', 'Y', 'Z'])`). -/
def mentionsXYZ (line : List Char) : Bool :=
  (upper line).contains 'X' || (upper line).contains 'Y' || (upper line).contains 'Z'

/-- One iteration of the per-line loop of `GCodeChecker.analyze_file`:
strip; skip blank lines; record the command; run the classifier; run the
coordinate tracker when a coordinate letter is present; run the feed-rate
check. -/
def process_line (ln : Nat) (raw : List Char) (s : Checker) : Checker :=
  let line := strip raw
  if line.isEmpty then s
  else
    let s := { s with commands := s.commands ++ [(ln, line)] }
    let s := (check_line line s).2
    let s := if mentionsXYZ line then check_coordinates line s else s
    check_feed_rate line s

/-- The per-line loop of `GCodeChecker.analyze_file` (`enumerate(lines, 1)`:
the counter advances on every raw line, blank ones included). -/
def process_lines : Nat → List (List Char) → Checker → Checker
  | _, [], s => s
  | n, raw :: rest, s => process_lines (n + 1) rest (process_line n raw s)

/-- `posixpath.dirname`: the path up to (and normally excluding) the last
`/`; a head made only of slashes is kept as is. -/
def dirname (p : List Char) : List Char :=
  let head := (p.reverse.dropWhile (fun c => c ≠ '/')).reverse
  if head.isEmpty then []
  else if head.all (fun c => c = '/') then head
  else (head.reverse.dropWhile (fun c => c = '/')).reverse

/-- The `main_dir` of `auto_detect_and_analyze_subprograms`: the directory
of the main file, `"."` when `os.path.dirname` is empty. -/
def mainDirOf (filename : List Char) : List Char :=
  let d := dirname filename
  if d.isEmpty then str "." else d

/-- `posixpath.join a b` (two components, as used by the source). -/
def joinPath (a b : List Char) : List Char :=
  if headIs '/' b then b
  else if a.isEmpty || a.getLastD ' ' = '/' then a ++ b
  else a ++ '/' :: b

/-- The extension produced by `posixpath.splitext`: the suffix of the
basename from its last dot, provided some non-dot character of the basename
precedes that dot. -/
def fileExt (p : List Char) : List Char :=
  let base := (p.reverse.takeWhile (fun c => c ≠ '/')).reverse
  if base.contains '.' then
    let revBase := base.reverse
    let extRev := revBase.takeWhile (fun c => c ≠ '.')
    let pre := revBase.drop (extRev.length + 1)
    if pre.any (fun c => c ≠ '.') then '.' :: extRev.reverse else []
  else []

/-- `self.supported_extensions`. -/
def supported_extensions : List (List Char) :=
  [str ".nc", str ".txt", str ".gcode", str ".cnc"]

/-- `GCodeChecker.check_file_format`: warn when the extension of the
lower-cased filename is not in the allow-list. -/
def check_file_format (filename : List Char) (s : Checker) : Checker :=
  let ext := fileExt (lower filename)
  if ext ∈ supported_extensions then s else pushWarning s (Msg.badExtension ext)

/-- The `possible_names` list of `auto_detect_and_analyze_subprograms`:
the six candidate filenames for one called number, in source order. -/
def possible_names (call : List Char) : List (List Char) :=
  [str "O" ++ call ++ str ".txt",
   str "O" ++ call ++ str ".nc",
   str "o" ++ call ++ str ".txt",
   str "o" ++ call ++ str ".nc",
   call ++ str ".txt",
   call ++ str ".nc"]

/-- The merge step of `auto_detect_and_analyze_subprograms` for one
successfully analyzed subprogram: append the child's errors and warnings to
the parent's, each prefixed with the subprogram's file name, then append the
call number to `main_programs` (guarded only by the — at every call site
vacuously true — membership test `call in self.program_calls`; there is no
duplicate check against `main_programs`). -/
def mergeSub (s : Checker) (call name : List Char) (sub : Checker) : Checker :=
  let s := { s with errors := s.errors ++ sub.errors.map (Msg.subPrefixed name) }
  let s := { s with warnings := s.warnings ++ sub.warnings.map (Msg.subPrefixed name) }
  if call ∈ s.program_calls then { s with main_programs := s.main_programs ++ [call] } else s

/-- A file system: maps a path to the lines of the file, `none` when the
path does not exist. -/
def Fs := List Char → Option (List (List Char))

/-- The body of the inner candidate loop of
`auto_detect_and_analyze_subprograms` once `os.path.exists` has succeeded:
analyze the candidate with a fresh checker (`analyzeChild` is the recursive
analysis at the remaining fuel) and merge on success; the loop `break`s
afterwards either way.  `none` propagates fuel exhaustion. -/
def resolve_candidate (analyzeChild : List Char → Option (Bool × Checker))
    (dir call name : List Char) (s : Checker) : Option Checker :=
  (analyzeChild (joinPath dir name)).map
    (fun r => if r.1 then mergeSub s call name r.2 else s)

/-- The inner loop of `auto_detect_and_analyze_subprograms` over the
candidate names of one call: the first existing path wins, the remaining
candidates are skipped. -/
def try_names (analyzeChild : List Char → Option (Bool × Checker)) (fs : Fs)
    (dir call : List Char) (s : Checker) : List (List Char) → Option Checker
  | [] => some s
  | name :: rest =>
    if (fs (joinPath dir name)).isSome then resolve_candidate analyzeChild dir call name s
    else try_names analyzeChild fs dir call s rest

/-- The outer loop of `auto_detect_and_analyze_subprograms` over
`self.program_calls` (every occurrence, duplicates included). -/
def auto_detect_calls (analyzeChild : List Char → Option (Bool × Checker)) (fs : Fs)
    (dir : List Char) : List (List Char) → Checker → Option Checker
  | [], s => some s
  | call :: rest, s =>
    (try_names analyzeChild fs dir call s (possible_names call)).bind
      (fun s1 => auto_detect_calls analyzeChild fs dir rest s1)

/-- `GCodeChecker.validate_program_structure`: warn for every called number
absent from `main_programs`, then for every program number after the first
absent from `program_calls`. -/
def validate_program_structure (s : Checker) : Checker :=
  let w1 := s.program_calls.foldl
    (fun acc call => if call ∈ s.main_programs then acc else acc ++ [Msg.subNotDefined call])
    s.warnings
  let w2 := (s.main_programs.drop 1).foldl
    (fun acc prog => if prog ∈ s.program_calls then acc else acc ++ [Msg.subNotCalled prog])
    w1
  { s with warnings := w2 }

/-- The checker state after the extension check and the per-line loop of
`GCodeChecker.analyze_file`, before cross-file resolution. -/
def linePassState (filename : List Char) (lines : List (List Char)) : Checker :=
  process_lines 1 lines (check_file_format filename initChecker)

/-- `GCodeChecker.analyze_file` on a fresh checker, with fuel bounding the
recursion depth (`none` = the unguarded recursion did not finish within the
fuel): extension check; on a missing file record the error and return
`False`; otherwise run the per-line loop, then
`auto_detect_and_analyze_subprograms`, then `validate_program_structure`,
in this order, and return `True`. -/
def analyze_file : Nat → Fs → List Char → Option (Bool × Checker)
  | 0, _, _ => none
  | fuel + 1, fs, filename =>
    match fs filename with
    | none =>
      some (false, pushError (check_file_format filename initChecker) (Msg.fileNotFound filename))
    | some lines =>
      (auto_detect_calls (fun p => analyze_file fuel fs p) fs (mainDirOf filename)
          (linePassState filename lines).program_calls (linePassState filename lines)).map
        (fun s1 => (true, validate_program_structure s1))

/-- Concatenation of the images of a list's elements, used to state what the
resolver loop appends per occurrence of a call. -/
def concatMap (g : List Char → List Msg) : List (List Char) → List Msg
  | [] => []
  | c :: rest => g c ++ concatMap g rest

/-- The outcome of cross-file resolution for one occurrence of a called
number: the winning candidate name together with the child's final state,
provided some candidate path exists and its analysis returns `True`. -/
def resolvedOutcome (analyzeChild : List Char → Option (Bool × Checker)) (fs : Fs)
    (dir c : List Char) : Option (List Char × Checker) :=
  match (possible_names c).find? (fun nm => (fs (joinPath dir nm)).isSome) with
  | none => none
  | some name =>
    match analyzeChild (joinPath dir name) with
    | some (true, sub) => some (name, sub)
    | _ => none

/-- The error messages one occurrence of a called number merges into the
parent. -/
def resolvedErrs (analyzeChild : List Char → Option (Bool × Checker)) (fs : Fs)
    (dir c : List Char) : List Msg :=
  match resolvedOutcome analyzeChild fs dir c with
  | some (name, sub) => sub.errors.map (Msg.subPrefixed name)
  | none => []

/-- The warning messages one occurrence of a called number merges into the
parent. -/
def resolvedWarns (analyzeChild : List Char → Option (Bool × Checker)) (fs : Fs)
    (dir c : List Char) : List Msg :=
  match resolvedOutcome analyzeChild fs dir c with
  | some (name, sub) => sub.warnings.map (Msg.subPrefixed name)
  | none => []

/-- Whether one occurrence of a called number is successfully resolved and
analyzed. -/
def resolvedOk (analyzeChild : List Char → Option (Bool × Checker)) (fs : Fs)
    (dir c : List Char) : Bool :=
  (resolvedOutcome analyzeChild fs dir c).isSome

/-- Warning shapes producible by the extension check and the per-line pass
(used to show the structural warnings cannot originate there). -/
def lineWarnShape (m : Msg) : Prop :=
  (∃ a v, m = Msg.coordExceeds a v) ∨ (∃ v, m = Msg.highFeed v) ∨ (∃ e, m = Msg.badExtension e)

/-- Concrete file system for the C5 scenario: a single main file and no
candidate file for program 200. -/
def c5Fs : Fs := fun p =>
  if p = str "main.nc" then some [str "O100", str "M98 P200", str "M30"] else none

/-- Concrete file system for the C4 scenario: the C5 main file plus a
sibling `O200.nc` subprogram. -/
def demoFs : Fs := fun p =>
  if p = str "prog.nc" then some [str "O100", str "M98 P200", str "M30"]
  else if p = str "./O200.nc" then some [str "O200", str "G1 X1", str "M99"]
  else none

/-- The lines of the C4 main file. -/
def demoLines : List (List Char) := [str "O100", str "M98 P200", str "M30"]

/-- The analysis result of the C4 subprogram file. -/
def demoSub : Checker := ((analyze_file 1 demoFs (str "./O200.nc")).getD (false, initChecker)).2

/-- The analysis result of the C4 main file. -/
def demoRes : Bool × Checker := (analyze_file 2 demoFs (str "prog.nc")).getD (false, initChecker)

/-- Concrete file system for the C7 counterexample: the main file defines
`O200` and also calls it, and a sibling `O200.txt` exists. -/
def c7Fs : Fs := fun p =>
  if p = str "p.nc" then some [str "O200", str "M98 P200", str "M30"]
  else if p = str "./O200.txt" then some [str "O200", str "M99"]
  else none

/-- Cyclic two-file instance for C9: `O1.txt` calls program 2, `O2.txt`
calls program 1, and both resolve to each other by the naming convention. -/
def cycFs : Fs := fun p =>
  if p = str "./O1.txt" then some [str "O1", str "M98 P2"]
  else if p = str "./O2.txt" then some [str "O2", str "M98 P1"]
  else none

/-- The entry file of the cyclic C9 instance. -/
def cycMain : List Char := str "./O1.txt"

/-- Single-file acyclic instance (no calls at all), used to instantiate the
acyclic half of C9. -/
def oneFs : Fs := fun p => if p = str "m.nc" then some [str "G1 X1"] else none

/-- Concrete file for the C8 witness. -/
def w8Fs : Fs := fun p =>
  if p = str "t.nc" then some [str "G1 X1", str "", str "; note", str "M30", str "Y2"] else none

/-- The lines of the C8 witness file. -/
def w8Lines : List (List Char) := [str "G1 X1", str "", str "; note", str "M30", str "Y2"]

/-- The analysis result of the C8 witness file. -/
def w8Res : Bool × Checker := (analyze_file 1 w8Fs (str "t.nc")).getD (false, initChecker)

/-- Concrete state for the C10 witness: a fresh checker that has recorded
the same call twice. -/
def w10Start : Checker := { initChecker with program_calls := [str "200", str "200"] }

/-- The resolver child-analysis function at fuel 1 over the C7 file system,
used by the C10 witness. -/
def w10Child : List Char → Option (Bool × Checker) := fun p => analyze_file 1 c7Fs p

/-- The resolver result for the C10 witness. -/
def w10Res : Checker :=
  (auto_detect_calls w10Child c7Fs (str ".") (w10Start.program_calls) w10Start).getD initChecker

/-! ### Generic list lemmas for `strip` -/

theorem dropWhile_self_drop (p : Char → Bool) (l : List Char) :
    (l.dropWhile p).dropWhile p = l.dropWhile p := by
  induction l with
  | nil => rfl
  | cons c rest ih =>
    cases h : p c
    · simp [List.dropWhile_cons, h]
    · simp [List.dropWhile_cons, h, ih]

theorem dropWhile_head_false (p : Char → Bool) :
    ∀ {l : List Char} {c : Char} {t : List Char}, l.dropWhile p = c :: t → p c = false := by
  intro l
  induction l with
  | nil => intro c t h; simp [List.dropWhile] at h
  | cons a rest ih =>
    intro c t h
    cases ha : p a
    · rw [List.dropWhile_cons_of_neg (by simp [ha])] at h
      cases h
      exact ha
    · rw [List.dropWhile_cons_of_pos ha] at h
      exact ih h

theorem dropWhile_append_singleton (p : Char → Bool) {c : Char} (hc : p c = false)
    (xs : List Char) : (xs ++ [c]).dropWhile p = xs.dropWhile p ++ [c] := by
  induction xs with
  | nil => simp [List.dropWhile, hc]
  | cons x rest ih =>
    cases hx : p x
    · simp [List.dropWhile_cons, hx]
    · simp [List.dropWhile_cons, hx, ih]

theorem dropWhile_reverse_self (p : Char → Bool) {m : List Char} (hm : m.dropWhile p = m) :
    ((m.reverse.dropWhile p).reverse).dropWhile p = (m.reverse.dropWhile p).reverse := by
  cases m with
  | nil => rfl
  | cons c t =>
    have hpc : p c = false := by
      have h0 := List.dropWhile_eq_self_iff.mp hm (by simp)
      simpa using h0
    rw [List.reverse_cons, dropWhile_append_singleton p hpc, List.reverse_append,
      List.reverse_singleton, List.singleton_append, List.dropWhile_cons_of_neg (by simp [hpc])]

theorem strip_idem (l : List Char) : strip (strip l) = strip l := by
  show (((((l.dropWhile isPySpace).reverse.dropWhile isPySpace).reverse).dropWhile
      isPySpace).reverse.dropWhile isPySpace).reverse
    = ((l.dropWhile isPySpace).reverse.dropWhile isPySpace).reverse
  rw [dropWhile_reverse_self isPySpace (dropWhile_self_drop isPySpace l),
    List.reverse_reverse, dropWhile_self_drop]

/-! ### Frame lemmas: which fields each per-line check leaves unchanged -/

theorem pushError_frame (s : Checker) (m : Msg) :
    (pushError s m).x_positions = s.x_positions ∧
    (pushError s m).y_positions = s.y_positions ∧
    (pushError s m).z_positions = s.z_positions ∧
    (pushError s m).current_x = s.current_x ∧
    (pushError s m).current_y = s.current_y ∧
    (pushError s m).current_z = s.current_z ∧
    (pushError s m).warnings = s.warnings ∧
    (pushError s m).commands = s.commands ∧
    (pushError s m).main_programs = s.main_programs ∧
    (pushError s m).program_calls = s.program_calls ∧
    (pushError s m).errors = s.errors ++ [m] :=
  ⟨rfl, rfl, rfl, rfl, rfl, rfl, rfl, rfl, rfl, rfl, rfl⟩

theorem pushWarning_frame (s : Checker) (m : Msg) :
    (pushWarning s m).x_positions = s.x_positions ∧
    (pushWarning s m).y_positions = s.y_positions ∧
    (pushWarning s m).z_positions = s.z_positions ∧
    (pushWarning s m).current_x = s.current_x ∧
    (pushWarning s m).current_y = s.current_y ∧
    (pushWarning s m).current_z = s.current_z ∧
    (pushWarning s m).errors = s.errors ∧
    (pushWarning s m).commands = s.commands ∧
    (pushWarning s m).main_programs = s.main_programs ∧
    (pushWarning s m).program_calls = s.program_calls ∧
    (pushWarning s m).warnings = s.warnings ++ [m] :=
  ⟨rfl, rfl, rfl, rfl, rfl, rfl, rfl, rfl, rfl, rfl, rfl⟩

theorem check_program_structure_frame (l : List Char) (s : Checker) :
    (check_program_structure l s).x_positions = s.x_positions ∧
    (check_program_structure l s).y_positions = s.y_positions ∧
    (check_program_structure l s).z_positions = s.z_positions ∧
    (check_program_structure l s).current_x = s.current_x ∧
    (check_program_structure l s).current_y = s.current_y ∧
    (check_program_structure l s).current_z = s.current_z ∧
    (check_program_structure l s).errors = s.errors ∧
    (check_program_structure l s).warnings = s.warnings ∧
    (check_program_structure l s).commands = s.commands :=
  ⟨rfl, rfl, rfl, rfl, rfl, rfl, rfl, rfl, rfl⟩

theorem check_program_structure_calls (l : List Char) (s : Checker) :
    (check_program_structure l s).program_calls
      = s.program_calls ++ (m98_call (strip (upper l))).toList :=
  rfl

theorem check_program_structure_mains (l : List Char) (s : Checker) :
    (check_program_structure l s).main_programs
      = match o_program (strip (upper l)) with
        | some prog =>
          if prog ∈ s.main_programs then s.main_programs else s.main_programs ++ [prog]
        | none => s.main_programs :=
  rfl

theorem check_line_cases (l : List Char) (s : Checker) :
    (check_line l s).2 = s ∨
    (check_line l s).2 = check_program_structure (upper (strip l)) s ∨
    (check_line l s).2 = pushError (check_program_structure (upper (strip l)) s)
      (Msg.invalidFormat (upper (strip l))) := by
  unfold check_line
  dsimp only
  repeat' split
  · exact Or.inl rfl
  · exact Or.inr (Or.inl rfl)
  · exact Or.inr (Or.inl rfl)
  · exact Or.inr (Or.inr rfl)

theorem check_line_frame (l : List Char) (s : Checker) :
    (check_line l s).2.x_positions = s.x_positions ∧
    (check_line l s).2.y_positions = s.y_positions ∧
    (check_line l s).2.z_positions = s.z_positions ∧
    (check_line l s).2.current_x = s.current_x ∧
    (check_line l s).2.current_y = s.current_y ∧
    (check_line l s).2.current_z = s.current_z ∧
    (check_line l s).2.warnings = s.warnings ∧
    (check_line l s).2.commands = s.commands := by
  obtain ⟨c1, c2, c3, c4, c5, c6, _, c8, c9⟩ :=
    check_program_structure_frame (upper (strip l)) s
  obtain ⟨p1, p2, p3, p4, p5, p6, p7, p8, _⟩ :=
    pushError_frame (check_program_structure (upper (strip l)) s)
      (Msg.invalidFormat (upper (strip l)))
  rcases check_line_cases l s with h | h | h <;> rw [h]
  · exact ⟨rfl, rfl, rfl, rfl, rfl, rfl, rfl, rfl⟩
  · exact ⟨c1, c2, c3, c4, c5, c6, c8, c9⟩
  · rw [p1, p2, p3, p4, p5, p6, p7, p8]
    exact ⟨c1, c2, c3, c4, c5, c6, c8, c9⟩

theorem check_feed_rate_cases (l : List Char) (s : Checker) :
    check_feed_rate l s = s ∨
    (∃ v, feed_value l = some v ∧ 10000 < v ∧ check_feed_rate l s = pushWarning s (Msg.highFeed v)) ∨
    (∃ v, feed_value l = some v ∧ v ≤ 0 ∧ check_feed_rate l s = pushError s (Msg.invalidFeed v)) := by
  unfold check_feed_rate
  split
  next v heq =>
    split
    next hv => exact Or.inr (Or.inl ⟨v, heq, hv, rfl⟩)
    next hv =>
      split
      next hv2 => exact Or.inr (Or.inr ⟨v, heq, hv2, rfl⟩)
      next hv2 => exact Or.inl rfl
  next => exact Or.inl rfl

theorem check_feed_rate_frame (l : List Char) (s : Checker) :
    (check_feed_rate l s).x_positions = s.x_positions ∧
    (check_feed_rate l s).y_positions = s.y_positions ∧
    (check_feed_rate l s).z_positions = s.z_positions ∧
    (check_feed_rate l s).current_x = s.current_x ∧
    (check_feed_rate l s).current_y = s.current_y ∧
    (check_feed_rate l s).current_z = s.current_z ∧
    (check_feed_rate l s).commands = s.commands ∧
    (check_feed_rate l s).main_programs = s.main_programs ∧
    (check_feed_rate l s).program_calls = s.program_calls := by
  rcases check_feed_rate_cases l s with h | ⟨v, _, _, h⟩ | ⟨v, _, _, h⟩ <;> rw [h]
  · exact ⟨rfl, rfl, rfl, rfl, rfl, rfl, rfl, rfl, rfl⟩
  · obtain ⟨p1, p2, p3, p4, p5, p6, _, p8, p9, p10, _⟩ := pushWarning_frame s (Msg.highFeed v)
    exact ⟨p1, p2, p3, p4, p5, p6, p8, p9, p10⟩
  · obtain ⟨p1, p2, p3, p4, p5, p6, _, p8, p9, p10, _⟩ := pushError_frame s (Msg.invalidFeed v)
    exact ⟨p1, p2, p3, p4, p5, p6, p8, p9, p10⟩

theorem warnIf_x_positions (c : Prop) [Decidable c] (s : Checker) (w : Msg) :
    (if c then pushWarning s w else s).x_positions = s.x_positions := by split <;> rfl

theorem warnIf_y_positions (c : Prop) [Decidable c] (s : Checker) (w : Msg) :
    (if c then pushWarning s w else s).y_positions = s.y_positions := by split <;> rfl

theorem warnIf_z_positions (c : Prop) [Decidable c] (s : Checker) (w : Msg) :
    (if c then pushWarning s w else s).z_positions = s.z_positions := by split <;> rfl

theorem warnIf_current_x (c : Prop) [Decidable c] (s : Checker) (w : Msg) :
    (if c then pushWarning s w else s).current_x = s.current_x := by split <;> rfl

theorem warnIf_current_y (c : Prop) [Decidable c] (s : Checker) (w : Msg) :
    (if c then pushWarning s w else s).current_y = s.current_y := by split <;> rfl

theorem warnIf_current_z (c : Prop) [Decidable c] (s : Checker) (w : Msg) :
    (if c then pushWarning s w else s).current_z = s.current_z := by split <;> rfl

theorem warnIf_errors (c : Prop) [Decidable c] (s : Checker) (w : Msg) :
    (if c then pushWarning s w else s).errors = s.errors := by split <;> rfl

theorem warnIf_commands (c : Prop) [Decidable c] (s : Checker) (w : Msg) :
    (if c then pushWarning s w else s).commands = s.commands := by split <;> rfl

theorem warnIf_main_programs (c : Prop) [Decidable c] (s : Checker) (w : Msg) :
    (if c then pushWarning s w else s).main_programs = s.main_programs := by split <;> rfl

theorem warnIf_program_calls (c : Prop) [Decidable c] (s : Checker) (w : Msg) :
    (if c then pushWarning s w else s).program_calls = s.program_calls := by split <;> rfl

theorem check_coordinates_fields (l : List Char) (s : Checker) :
    (check_coordinates l s).current_x = (parse_coordinate l 'X').getD s.current_x ∧
    (check_coordinates l s).current_y = (parse_coordinate l 'Y').getD s.current_y ∧
    (check_coordinates l s).current_z = (parse_coordinate l 'Z').getD s.current_z ∧
    (check_coordinates l s).x_positions
      = s.x_positions ++ [(parse_coordinate l 'X').getD s.current_x] ∧
    (check_coordinates l s).y_positions
      = s.y_positions ++ [(parse_coordinate l 'Y').getD s.current_y] ∧
    (check_coordinates l s).z_positions
      = s.z_positions ++ [(parse_coordinate l 'Z').getD s.current_z] ∧
    (check_coordinates l s).errors = s.errors ∧
    (check_coordinates l s).commands = s.commands ∧
    (check_coordinates l s).main_programs = s.main_programs ∧
    (check_coordinates l s).program_calls = s.program_calls := by
  unfold check_coordinates
  dsimp only
  refine ⟨?_, ?_, ?_, ?_, ?_, ?_, ?_, ?_, ?_, ?_⟩ <;>
    simp only [warnIf_x_positions, warnIf_y_positions, warnIf_z_positions, warnIf_current_x,
      warnIf_current_y, warnIf_current_z, warnIf_errors, warnIf_commands, warnIf_main_programs,
      warnIf_program_calls]

theorem validate_frame (s : Checker) :
    (validate_program_structure s).x_positions = s.x_positions ∧
    (validate_program_structure s).y_positions = s.y_positions ∧
    (validate_program_structure s).z_positions = s.z_positions ∧
    (validate_program_structure s).current_x = s.current_x ∧
    (validate_program_structure s).current_y = s.current_y ∧
    (validate_program_structure s).current_z = s.current_z ∧
    (validate_program_structure s).errors = s.errors ∧
    (validate_program_structure s).commands = s.commands ∧
    (validate_program_structure s).main_programs = s.main_programs ∧
    (validate_program_structure s).program_calls = s.program_calls :=
  ⟨rfl, rfl, rfl, rfl, rfl, rfl, rfl, rfl, rfl, rfl⟩

theorem mergeSub_fields (s : Checker) (call name : List Char) (sub : Checker) :
    (mergeSub s call name sub).x_positions = s.x_positions ∧
    (mergeSub s call name sub).y_positions = s.y_positions ∧
    (mergeSub s call name sub).z_positions = s.z_positions ∧
    (mergeSub s call name sub).current_x = s.current_x ∧
    (mergeSub s call name sub).current_y = s.current_y ∧
    (mergeSub s call name sub).current_z = s.current_z ∧
    (mergeSub s call name sub).commands = s.commands ∧
    (mergeSub s call name sub).program_calls = s.program_calls ∧
    (mergeSub s call name sub).errors = s.errors ++ sub.errors.map (Msg.subPrefixed name) ∧
    (mergeSub s call name sub).warnings = s.warnings ++ sub.warnings.map (Msg.subPrefixed name) ∧
    (mergeSub s call name sub).main_programs
      = (if call ∈ s.program_calls then s.main_programs ++ [call] else s.main_programs) := by
  unfold mergeSub
  dsimp only
  split <;> exact ⟨rfl, rfl, rfl, rfl, rfl, rfl, rfl, rfl, rfl, rfl, rfl⟩

theorem check_file_format_cases (f : List Char) (s : Checker) :
    check_file_format f s = s ∨
    check_file_format f s = pushWarning s (Msg.badExtension (fileExt (lower f))) := by
  unfold check_file_format
  dsimp only
  split
  · exact Or.inl rfl
  · exact Or.inr rfl

theorem check_file_format_frame (f : List Char) (s : Checker) :
    (check_file_format f s).x_positions = s.x_positions ∧
    (check_file_format f s).y_positions = s.y_positions ∧
    (check_file_format f s).z_positions = s.z_positions ∧
    (check_file_format f s).current_x = s.current_x ∧
    (check_file_format f s).current_y = s.current_y ∧
    (check_file_format f s).current_z = s.current_z ∧
    (check_file_format f s).errors = s.errors ∧
    (check_file_format f s).commands = s.commands ∧
    (check_file_format f s).main_programs = s.main_programs ∧
    (check_file_format f s).program_calls = s.program_calls := by
  rcases check_file_format_cases f s with h | h <;> rw [h]
  · exact ⟨rfl, rfl, rfl, rfl, rfl, rfl, rfl, rfl, rfl, rfl⟩
  · obtain ⟨p1, p2, p3, p4, p5, p6, p7, p8, p9, p10, _⟩ :=
      pushWarning_frame s (Msg.badExtension (fileExt (lower f)))
    exact ⟨p1, p2, p3, p4, p5, p6, p7, p8, p9, p10⟩

/-! ### The coordinate tracker on one processed line -/

theorem searchAxisNumber_mem {a : Char} :
    ∀ {l g : List Char}, searchAxisNumber a l = some g → a ∈ l := by
  intro l
  induction l with
  | nil => intro g h; exact absurd h (by simp [searchAxisNumber])
  | cons c rest ih =>
    intro g h
    by_cases hc : c = a
    · rw [hc]; exact List.mem_cons_self a rest
    · unfold searchAxisNumber at h
      rw [if_neg hc] at h
      exact List.mem_cons_of_mem _ (ih h)

theorem parse_coordinate_nonempty {line : List Char} {axis : Char} {v : ℚ}
    (h : parse_coordinate line axis = some v) : line.isEmpty = false := by
  cases hl : line with
  | nil =>
    rw [hl] at h
    exact absurd h (by simp [parse_coordinate, upper, searchAxisNumber])
  | cons c t => rfl

theorem mentionsXYZ_of_parse {line : List Char} {axis : Char} {v : ℚ}
    (ha : axis = 'X' ∨ axis = 'Y' ∨ axis = 'Z')
    (h : parse_coordinate line axis = some v) : mentionsXYZ line = true := by
  have hmem : axis ∈ upper line := by
    unfold parse_coordinate at h
    cases hs : searchAxisNumber axis (upper line) with
    | none => rw [hs] at h; cases h
    | some g => exact searchAxisNumber_mem hs
  have hcont : (upper line).contains axis = true := by
    simpa using hmem
  unfold mentionsXYZ
  rcases ha with rfl | rfl | rfl <;> simp <;> tauto

theorem process_line_x_some (ln : Nat) (line : List Char) (s : Checker) (v : ℚ)
    (h : parse_coordinate (strip line) 'X' = some v) :
    (process_line ln line s).current_x = v := by
  have hne := parse_coordinate_nonempty h
  have hm := mentionsXYZ_of_parse (Or.inl rfl) h
  unfold process_line
  dsimp only
  simp only [hne, Bool.false_eq_true, if_false, hm, if_true]
  rw [(check_feed_rate_frame _ _).2.2.2.1, (check_coordinates_fields _ _).1, h]
  rfl

theorem process_line_y_some (ln : Nat) (line : List Char) (s : Checker) (v : ℚ)
    (h : parse_coordinate (strip line) 'Y' = some v) :
    (process_line ln line s).current_y = v := by
  have hne := parse_coordinate_nonempty h
  have hm := mentionsXYZ_of_parse (Or.inr (Or.inl rfl)) h
  unfold process_line
  dsimp only
  simp only [hne, Bool.false_eq_true, if_false, hm, if_true]
  rw [(check_feed_rate_frame _ _).2.2.2.2.1, (check_coordinates_fields _ _).2.1, h]
  rfl

theorem process_line_z_some (ln : Nat) (line : List Char) (s : Checker) (v : ℚ)
    (h : parse_coordinate (strip line) 'Z' = some v) :
    (process_line ln line s).current_z = v := by
  have hne := parse_coordinate_nonempty h
  have hm := mentionsXYZ_of_parse (Or.inr (Or.inr rfl)) h
  unfold process_line
  dsimp only
  simp only [hne, Bool.false_eq_true, if_false, hm, if_true]
  rw [(check_feed_rate_frame _ _).2.2.2.2.2.1, (check_coordinates_fields _ _).2.2.1, h]
  rfl

theorem process_line_x_none (ln : Nat) (line : List Char) (s : Checker)
    (h : parse_coordinate (strip line) 'X' = none) :
    (process_line ln line s).current_x = s.current_x := by
  unfold process_line
  dsimp only
  split
  · rfl
  · rw [(check_feed_rate_frame _ _).2.2.2.1]
    split
    · rw [(check_coordinates_fields _ _).1, h, Option.getD_none, (check_line_frame _ _).2.2.2.1]
    · rw [(check_line_frame _ _).2.2.2.1]

theorem process_line_y_none (ln : Nat) (line : List Char) (s : Checker)
    (h : parse_coordinate (strip line) 'Y' = none) :
    (process_line ln line s).current_y = s.current_y := by
  unfold process_line
  dsimp only
  split
  · rfl
  · rw [(check_feed_rate_frame _ _).2.2.2.2.1]
    split
    · rw [(check_coordinates_fields _ _).2.1, h, Option.getD_none,
        (check_line_frame _ _).2.2.2.2.1]
    · rw [(check_line_frame _ _).2.2.2.2.1]

theorem process_line_z_none (ln : Nat) (line : List Char) (s : Checker)
    (h : parse_coordinate (strip line) 'Z' = none) :
    (process_line ln line s).current_z = s.current_z := by
  unfold process_line
  dsimp only
  split
  · rfl
  · rw [(check_feed_rate_frame _ _).2.2.2.2.2.1]
    split
    · rw [(check_coordinates_fields _ _).2.2.1, h, Option.getD_none,
        (check_line_frame _ _).2.2.2.2.2.1]
    · rw [(check_line_frame _ _).2.2.2.2.2.1]

theorem check_line_ignorable {line : List Char} (s : Checker)
    (hig : ignorable (upper (strip line)) = true) : check_line line s = (true, s) := by
  unfold check_line
  dsimp only
  rw [if_pos hig]

/-! ### Claims C1, C2, C3, C5 -/

set_option maxRecDepth 10000

/-- C1: for every processed line, an axis (X, Y or Z) whose coordinate
pattern matches on the line gets the parsed number as its Position field,
and an axis with no match keeps its prior value (sticky/modal semantics); in
particular processing `X10 Y5` then `X12` from the initial position
(0, 0, 0) ends at position (12, 5, 0). -/
theorem C1_claim :
    (∀ ln line s v, parse_coordinate (strip line) 'X' = some v →
      (process_line ln line s).current_x = v) ∧
    (∀ ln line s v, parse_coordinate (strip line) 'Y' = some v →
      (process_line ln line s).current_y = v) ∧
    (∀ ln line s v, parse_coordinate (strip line) 'Z' = some v →
      (process_line ln line s).current_z = v) ∧
    (∀ ln line s, parse_coordinate (strip line) 'X' = none →
      (process_line ln line s).current_x = s.current_x) ∧
    (∀ ln line s, parse_coordinate (strip line) 'Y' = none →
      (process_line ln line s).current_y = s.current_y) ∧
    (∀ ln line s, parse_coordinate (strip line) 'Z' = none →
      (process_line ln line s).current_z = s.current_z) ∧
    ((process_line 2 (str "X12") (process_line 1 (str "X10 Y5") initChecker)).current_x = 12 ∧
     (process_line 2 (str "X12") (process_line 1 (str "X10 Y5") initChecker)).current_y = 5 ∧
     (process_line 2 (str "X12") (process_line 1 (str "X10 Y5") initChecker)).current_z = 0) :=
  ⟨fun ln line s v h => process_line_x_some ln line s v h,
   fun ln line s v h => process_line_y_some ln line s v h,
   fun ln line s v h => process_line_z_some ln line s v h,
   fun ln line s h => process_line_x_none ln line s h,
   fun ln line s h => process_line_y_none ln line s h,
   fun ln line s h => process_line_z_none ln line s h,
   by decide⟩

/-- Witness for C1 at concrete inputs: `X10 Y5` sets X to 10, and a line
with no Z match leaves Z unchanged. -/
theorem C1_witness :
    parse_coordinate (strip (str "X10 Y5")) 'X' = some 10 ∧
    (process_line 1 (str "X10 Y5") initChecker).current_x = 10 ∧
    parse_coordinate (strip (str "G0")) 'Z' = none ∧
    (process_line 1 (str "G0") initChecker).current_z = initChecker.current_z :=
  ⟨by decide, C1_claim.1 1 (str "X10 Y5") initChecker 10 (by decide), by decide,
   C1_claim.2.2.2.2.2.1 1 (str "G0") initChecker (by decide)⟩

/-- C2 counterexample: the comment line `;X10` is classified Ignorable, yet
processing it moves the X position to 10 (the per-line loop runs the
coordinate tracker on any line containing an axis letter, comment or not);
likewise the Ignorable line `;F0` emits an "Invalid feed rate" error. -/
theorem C2_counterexample :
    ignorable (upper (strip (str ";X10"))) = true ∧
    (process_line 1 (str ";X10") initChecker).current_x ≠ initChecker.current_x ∧
    ignorable (upper (strip (str ";F0"))) = true ∧
    (process_line 1 (str ";F0") initChecker).errors = [Msg.invalidFeed 0] := by
  decide

/-- C2 as amended: an Ignorable line emits no error and leaves the Position
unchanged provided none of the three coordinate patterns matches on it and
any feed-rate number on it is positive (the source still runs the
coordinate tracker and the feed-rate check on Ignorable lines). -/
theorem C2_amended_claim (ln : Nat) (line : List Char) (s : Checker)
    (hig : ignorable (upper (strip line)) = true)
    (hx : parse_coordinate (strip line) 'X' = none)
    (hy : parse_coordinate (strip line) 'Y' = none)
    (hz : parse_coordinate (strip line) 'Z' = none)
    (hf : ∀ v, feed_value (strip line) = some v → 0 < v) :
    (process_line ln line s).errors = s.errors ∧
    (process_line ln line s).current_x = s.current_x ∧
    (process_line ln line s).current_y = s.current_y ∧
    (process_line ln line s).current_z = s.current_z := by
  refine ⟨?_, process_line_x_none ln line s hx, process_line_y_none ln line s hy,
    process_line_z_none ln line s hz⟩
  unfold process_line
  dsimp only
  split
  · rfl
  · have hig2 : ignorable (upper (strip (strip line))) = true := by
      rw [strip_idem]; exact hig
    rw [check_line_ignorable _ hig2]
    have hcoord : ∀ t : Checker,
        (if mentionsXYZ (strip line) = true then check_coordinates (strip line) t else t).errors
          = t.errors := by
      intro t
      split
      · exact (check_coordinates_fields _ _).2.2.2.2.2.2.1
      · rfl
    rcases check_feed_rate_cases (strip line)
        (if mentionsXYZ (strip line) = true then
          check_coordinates (strip line) ((true, { s with commands := s.commands ++ [(ln, strip line)] }).2)
        else ((true, { s with commands := s.commands ++ [(ln, strip line)] }).2))
      with hcase | ⟨v, hv, _, hcase⟩ | ⟨v, hv, hv0, hcase⟩
    · rw [hcase, hcoord]
    · rw [hcase, (pushWarning_frame _ _).2.2.2.2.2.2.1, hcoord]
    · exact absurd hv0 (not_le.mpr (hf v hv))

/-- Witness for C2 as amended: the comment line `;ok` (no coordinate
pattern, no feed number) leaves errors and Position unchanged. -/
theorem C2_witness :
    (process_line 1 (str ";ok") initChecker).errors = initChecker.errors ∧
    (process_line 1 (str ";ok") initChecker).current_x = initChecker.current_x ∧
    (process_line 1 (str ";ok") initChecker).current_y = initChecker.current_y ∧
    (process_line 1 (str ";ok") initChecker).current_z = initChecker.current_z :=
  C2_amended_claim 1 (str ";ok") initChecker (by decide) (by decide) (by decide) (by decide)
    (fun v hv => by
      rw [show feed_value (strip (str ";ok")) = none from by decide] at hv
      cases hv)

/-- C3 counterexample: the feed-rate pattern `F(\d*\.?\d+)` accepts no sign,
so processing `F-5` emits no error (and no warning) — not one error as
claimed. -/
theorem C3_counterexample :
    (process_line 1 (str "F-5") initChecker).errors = [] ∧
    (process_line 1 (str "F-5") initChecker).warnings = [] := by
  decide

/-- C3 as amended: `F0` produces exactly one error and no warning, `F15000`
exactly one warning and no error, `F500` neither, and `F-5` neither (its
minus sign prevents the feed-rate pattern from matching). -/
theorem C3_amended_claim :
    (process_line 1 (str "F0") initChecker).errors = [Msg.invalidFeed 0] ∧
    (process_line 1 (str "F0") initChecker).warnings = [] ∧
    (process_line 1 (str "F15000") initChecker).warnings = [Msg.highFeed 15000] ∧
    (process_line 1 (str "F15000") initChecker).errors = [] ∧
    (process_line 1 (str "F500") initChecker).errors = [] ∧
    (process_line 1 (str "F500") initChecker).warnings = [] ∧
    (process_line 1 (str "F-5") initChecker).errors = [] ∧
    (process_line 1 (str "F-5") initChecker).warnings = [] := by
  decide

/-- C5: analyzing a main file `O100 / M98 P200 / M30` with no candidate
file for program 200 yields exactly the warning "Subprogram P200 called but
not defined" and the Program Registry `{"100"}`. -/
theorem C5_claim :
    (analyze_file 1 c5Fs (str "main.nc")).map (fun r => (r.1, r.2.warnings, r.2.main_programs))
      = some (true, [Msg.subNotDefined (str "200")], [str "100"]) := by
  decide

/-! ### The cross-file resolver loop, characterized -/

theorem try_names_eq (f : List Char → Option (Bool × Checker)) (fs : Fs)
    (dir call : List Char) (s : Checker) :
    ∀ names : List (List Char),
      try_names f fs dir call s names
        = match names.find? (fun nm => (fs (joinPath dir nm)).isSome) with
          | none => some s
          | some name => resolve_candidate f dir call name s := by
  intro names
  induction names with
  | nil => rfl
  | cons name rest ih =>
    show (if (fs (joinPath dir name)).isSome = true then resolve_candidate f dir call name s
        else try_names f fs dir call s rest) = _
    cases hex : (fs (joinPath dir name)).isSome with
    | false => simp [List.find?_cons, hex, ih]
    | true => simp [List.find?_cons, hex]

theorem auto_detect_calls_spec (f : List Char → Option (Bool × Checker)) (fs : Fs)
    (dir : List Char) :
    ∀ (calls : List (List Char)) (s s' : Checker),
      auto_detect_calls f fs dir calls s = some s' →
      s'.errors = s.errors ++ concatMap (resolvedErrs f fs dir) calls ∧
      s'.warnings = s.warnings ++ concatMap (resolvedWarns f fs dir) calls ∧
      s'.main_programs = s.main_programs
        ++ calls.filter (fun c => resolvedOk f fs dir c && decide (c ∈ s.program_calls)) ∧
      s'.program_calls = s.program_calls ∧
      s'.x_positions = s.x_positions ∧
      s'.y_positions = s.y_positions ∧
      s'.z_positions = s.z_positions ∧
      s'.commands = s.commands := by
  intro calls
  induction calls with
  | nil =>
    intro s s' h
    cases h
    simp [concatMap]
  | cons c rest ih =>
    intro s s' h
    have hstep : (try_names f fs dir c s (possible_names c)).bind
        (fun s1 => auto_detect_calls f fs dir rest s1) = some s' := h
    rw [try_names_eq] at hstep
    cases hfind : (possible_names c).find? (fun nm => (fs (joinPath dir nm)).isSome) with
    | none =>
      rw [hfind] at hstep
      simp only [Option.some_bind] at hstep
      obtain ⟨e1, e2, e3, e4, e5, e6, e7, e8⟩ := ih s s' hstep
      have hro : resolvedOutcome f fs dir c = none := by
        unfold resolvedOutcome
        rw [hfind]
      refine ⟨?_, ?_, ?_, e4, e5, e6, e7, e8⟩
      · simp [concatMap, resolvedErrs, hro, e1]
      · simp [concatMap, resolvedWarns, hro, e2]
      · simp [List.filter_cons, resolvedOk, hro, e3]
    | some name =>
      rw [hfind] at hstep
      dsimp only at hstep
      unfold resolve_candidate at hstep
      cases hsub : f (joinPath dir name) with
      | none =>
        rw [hsub] at hstep
        cases hstep
      | some r =>
        rw [hsub] at hstep
        obtain ⟨ok, sub⟩ := r
        cases ok with
        | false =>
          simp only [Option.map_some', Option.some_bind, Bool.false_eq_true, if_false] at hstep
          obtain ⟨e1, e2, e3, e4, e5, e6, e7, e8⟩ := ih s s' hstep
          have hro : resolvedOutcome f fs dir c = none := by
            unfold resolvedOutcome
            rw [hfind]
            dsimp only
            rw [hsub]
          refine ⟨?_, ?_, ?_, e4, e5, e6, e7, e8⟩
          · simp [concatMap, resolvedErrs, hro, e1]
          · simp [concatMap, resolvedWarns, hro, e2]
          · simp [List.filter_cons, resolvedOk, hro, e3]
        | true =>
          simp only [Option.map_some', Option.some_bind, if_true] at hstep
          obtain ⟨e1, e2, e3, e4, e5, e6, e7, e8⟩ := ih (mergeSub s c name sub) s' hstep
          obtain ⟨m1, m2, m3, m4, m5, m6, m7, m8, me, mw, mm⟩ := mergeSub_fields s c name sub
          have hro : resolvedOutcome f fs dir c = some (name, sub) := by
            unfold resolvedOutcome
            rw [hfind]
            dsimp only
            rw [hsub]
          have hok : resolvedOk f fs dir c = true := by
            unfold resolvedOk
            rw [hro]
            rfl
          refine ⟨?_, ?_, ?_, ?_, ?_, ?_, ?_, ?_⟩
          · rw [e1, me]
            simp [concatMap, resolvedErrs, hro, List.append_assoc]
          · rw [e2, mw]
            simp [concatMap, resolvedWarns, hro, List.append_assoc]
          · rw [e3, mm, m8]
            by_cases hc : c ∈ s.program_calls
            · rw [if_pos hc]
              simp [List.filter_cons, hok, hc, List.append_assoc]
            · rw [if_neg hc]
              simp [List.filter_cons, hok, hc]
          · rw [e4, m8]
          · rw [e5, m1]
          · rw [e6, m2]
          · rw [e7, m3]
          · rw [e8, m7]

/-! ### Shapes of the warnings produced by each phase -/

theorem pushWarning_warn_inv {P : Msg → Prop} {s : Checker} {w : Msg}
    (h : ∀ m ∈ s.warnings, P m) (hw : P w) : ∀ m ∈ (pushWarning s w).warnings, P m := by
  intro m hm
  rcases List.mem_append.mp hm with h1 | h1
  · exact h m h1
  · rw [List.mem_singleton.mp h1]
    exact hw

theorem warnIf_warn_inv {P : Msg → Prop} {c : Prop} [Decidable c] {s : Checker} {w : Msg}
    (h : ∀ m ∈ s.warnings, P m) (hw : P w) :
    ∀ m ∈ (if c then pushWarning s w else s).warnings, P m := by
  split
  · exact pushWarning_warn_inv h hw
  · exact h

theorem check_coordinates_warn_inv {P : Msg → Prop} (hP : ∀ a v, P (Msg.coordExceeds a v))
    {s : Checker} (h : ∀ m ∈ s.warnings, P m) (l : List Char) :
    ∀ m ∈ (check_coordinates l s).warnings, P m := by
  unfold check_coordinates
  dsimp only
  exact warnIf_warn_inv (warnIf_warn_inv (warnIf_warn_inv h (hP _ _)) (hP _ _)) (hP _ _)

theorem process_line_warn_inv {P : Msg → Prop} (hcoord : ∀ a v, P (Msg.coordExceeds a v))
    (hfeed : ∀ v, P (Msg.highFeed v)) (ln : Nat) (l : List Char) {s : Checker}
    (h : ∀ m ∈ s.warnings, P m) : ∀ m ∈ (process_line ln l s).warnings, P m := by
  unfold process_line
  dsimp only
  split
  · exact h
  · have h1 : ∀ m ∈ (check_line (strip l)
        { s with commands := s.commands ++ [(ln, strip l)] }).2.warnings, P m := by
      rw [(check_line_frame _ _).2.2.2.2.2.2.1]
      exact h
    have h2 : ∀ m ∈ (if mentionsXYZ (strip l) = true then
        check_coordinates (strip l)
          ((check_line (strip l) { s with commands := s.commands ++ [(ln, strip l)] }).2)
        else (check_line (strip l) { s with commands := s.commands ++ [(ln, strip l)] }).2).warnings,
        P m := by
      split
      · exact check_coordinates_warn_inv hcoord h1 _
      · exact h1
    rcases check_feed_rate_cases (strip l) _ with hc | ⟨v, _, _, hc⟩ | ⟨v, _, _, hc⟩ <;> rw [hc]
    · exact h2
    · exact pushWarning_warn_inv h2 (hfeed v)
    · intro m hm
      rw [(pushError_frame _ _).2.2.2.2.2.2.1] at hm
      exact h2 m hm

theorem process_lines_warn_inv {P : Msg → Prop} (hcoord : ∀ a v, P (Msg.coordExceeds a v))
    (hfeed : ∀ v, P (Msg.highFeed v)) :
    ∀ (lines : List (List Char)) (n : Nat) (s : Checker),
      (∀ m ∈ s.warnings, P m) → ∀ m ∈ (process_lines n lines s).warnings, P m := by
  intro lines
  induction lines with
  | nil => intro n s h; exact h
  | cons raw rest ih =>
    intro n s h
    exact ih (n + 1) _ (process_line_warn_inv hcoord hfeed n raw h)

theorem linePassState_warn_shape (filename : List Char) (lines : List (List Char)) :
    ∀ m ∈ (linePassState filename lines).warnings, lineWarnShape m := by
  unfold linePassState
  refine process_lines_warn_inv (fun a v => Or.inl ⟨a, v, rfl⟩)
    (fun v => Or.inr (Or.inl ⟨v, rfl⟩)) lines 1 _ ?_
  rcases check_file_format_cases filename initChecker with h | h <;> rw [h]
  · intro m hm
    cases hm
  · intro m hm
    rcases List.mem_append.mp hm with h1 | h1
    · cases h1
    · rw [List.mem_singleton.mp h1]
      exact Or.inr (Or.inr ⟨_, rfl⟩)

theorem mem_concatMap {g : List Char → List Msg} {calls : List (List Char)} {c : List Char}
    (hc : c ∈ calls) {m : Msg} (hm : m ∈ g c) : m ∈ concatMap g calls := by
  induction calls with
  | nil => cases hc
  | cons a rest ih =>
    rcases List.mem_cons.mp hc with rfl | hc'
    · exact List.mem_append.mpr (Or.inl hm)
    · exact List.mem_append.mpr (Or.inr (ih hc'))

theorem concatMap_resolvedWarns_shape (f : List Char → Option (Bool × Checker)) (fs : Fs)
    (dir : List Char) :
    ∀ calls : List (List Char), ∀ m ∈ concatMap (resolvedWarns f fs dir) calls,
      ∃ nm m', m = Msg.subPrefixed nm m' := by
  intro calls
  induction calls with
  | nil => intro m hm; cases hm
  | cons c rest ih =>
    intro m hm
    rcases List.mem_append.mp hm with h1 | h1
    · unfold resolvedWarns at h1
      cases hro : resolvedOutcome f fs dir c with
      | none => rw [hro] at h1; cases h1
      | some p =>
        rw [hro] at h1
        obtain ⟨nm, sub⟩ := p
        obtain ⟨m', _, rfl⟩ := List.mem_map.mp h1
        exact ⟨nm, m', rfl⟩
    · exact ih m h1

/-! ### The post-pass validation's warnings -/

theorem validate_fold1 (mains : List (List Char)) :
    ∀ (l : List (List Char)) (acc : List Msg),
      ∃ t, l.foldl
          (fun acc call => if call ∈ mains then acc else acc ++ [Msg.subNotDefined call]) acc
          = acc ++ t ∧
        ∀ m ∈ t, ∃ n, m = Msg.subNotDefined n ∧ n ∉ mains := by
  intro l
  induction l with
  | nil =>
    intro acc
    exact ⟨[], by simp, by simp⟩
  | cons c rest ih =>
    intro acc
    by_cases hc : c ∈ mains
    · rw [List.foldl_cons, if_pos hc]
      exact ih acc
    · rw [List.foldl_cons, if_neg hc]
      obtain ⟨t, ht, hall⟩ := ih (acc ++ [Msg.subNotDefined c])
      refine ⟨Msg.subNotDefined c :: t, by rw [ht, List.append_assoc]; rfl, ?_⟩
      intro m hm
      rcases List.mem_cons.mp hm with rfl | hm'
      · exact ⟨c, rfl, hc⟩
      · exact hall m hm'

theorem validate_fold2 (calls : List (List Char)) :
    ∀ (l : List (List Char)) (acc : List Msg),
      ∃ t, l.foldl
          (fun acc prog => if prog ∈ calls then acc else acc ++ [Msg.subNotCalled prog]) acc
          = acc ++ t ∧
        ∀ m ∈ t, ∃ n, m = Msg.subNotCalled n := by
  intro l
  induction l with
  | nil =>
    intro acc
    exact ⟨[], by simp, by simp⟩
  | cons c rest ih =>
    intro acc
    by_cases hc : c ∈ calls
    · rw [List.foldl_cons, if_pos hc]
      exact ih acc
    · rw [List.foldl_cons, if_neg hc]
      obtain ⟨t, ht, hall⟩ := ih (acc ++ [Msg.subNotCalled c])
      refine ⟨Msg.subNotCalled c :: t, by rw [ht, List.append_assoc]; rfl, ?_⟩
      intro m hm
      rcases List.mem_cons.mp hm with rfl | hm'
      · exact ⟨c, rfl⟩
      · exact hall m hm'

theorem validate_warnings_spec (s : Checker) :
    ∃ t, (validate_program_structure s).warnings = s.warnings ++ t ∧
      ∀ m ∈ t, (∃ n, m = Msg.subNotDefined n ∧ n ∉ s.main_programs) ∨
               (∃ n, m = Msg.subNotCalled n) := by
  have e : (validate_program_structure s).warnings
      = (s.main_programs.drop 1).foldl
          (fun acc prog => if prog ∈ s.program_calls then acc else acc ++ [Msg.subNotCalled prog])
          (s.program_calls.foldl
            (fun acc call =>
              if call ∈ s.main_programs then acc else acc ++ [Msg.subNotDefined call])
            s.warnings) := rfl
  obtain ⟨t1, ht1, h1⟩ := validate_fold1 s.main_programs s.program_calls s.warnings
  obtain ⟨t2, ht2, h2⟩ := validate_fold2 s.program_calls (s.main_programs.drop 1)
    (s.program_calls.foldl
      (fun acc call => if call ∈ s.main_programs then acc else acc ++ [Msg.subNotDefined call])
      s.warnings)
  refine ⟨t1 ++ t2, ?_, ?_⟩
  · rw [e, ht2, ht1, List.append_assoc]
  · intro m hm
    rcases List.mem_append.mp hm with hm' | hm'
    · obtain ⟨n, rfl, hn⟩ := h1 m hm'
      exact Or.inl ⟨n, rfl, hn⟩
    · obtain ⟨n, rfl⟩ := h2 m hm'
      exact Or.inr ⟨n, rfl⟩

/-! ### Claims C4 and C10 -/

theorem analyze_file_unfold (fuel : Nat) (fs : Fs) (filename : List Char)
    (lines : List (List Char)) (hread : fs filename = some lines) :
    analyze_file (fuel + 1) fs filename
      = (auto_detect_calls (fun p => analyze_file fuel fs p) fs (mainDirOf filename)
          (linePassState filename lines).program_calls (linePassState filename lines)).map
        (fun s1 => (true, validate_program_structure s1)) := by
  rw [analyze_file, hread]

/-- C4: when a file is readable, `analyze_file` runs the cross-file resolver
and only then the program-structure post-pass; every call occurrence whose
subprogram file resolves (some candidate exists) and analyzes successfully
ends up registered in the parent's Program Registry, the child's error and
warning messages appear in the parent's sequences prefixed with the child's
file name, and the "Subprogram P.. called but not defined" warning does not
fire for that call. -/
theorem C4_claim (fuel : Nat) (fs : Fs) (filename name c : List Char)
    (lines : List (List Char)) (res : Bool × Checker) (sub : Checker)
    (hread : fs filename = some lines)
    (hrun : analyze_file (fuel + 1) fs filename = some res)
    (hc : c ∈ (linePassState filename lines).program_calls)
    (hfind : (possible_names c).find?
        (fun nm => (fs (joinPath (mainDirOf filename) nm)).isSome) = some name)
    (hsub : analyze_file fuel fs (joinPath (mainDirOf filename) name) = some (true, sub)) :
    (analyze_file (fuel + 1) fs filename
      = (auto_detect_calls (fun p => analyze_file fuel fs p) fs (mainDirOf filename)
          (linePassState filename lines).program_calls (linePassState filename lines)).map
        (fun s1 => (true, validate_program_structure s1))) ∧
    res.1 = true ∧
    c ∈ res.2.main_programs ∧
    (∀ m ∈ sub.errors, Msg.subPrefixed name m ∈ res.2.errors) ∧
    (∀ m ∈ sub.warnings, Msg.subPrefixed name m ∈ res.2.warnings) ∧
    Msg.subNotDefined c ∉ res.2.warnings := by
  have hunf := analyze_file_unfold fuel fs filename lines hread
  refine ⟨hunf, ?_⟩
  rw [hunf] at hrun
  cases hauto : auto_detect_calls (fun p => analyze_file fuel fs p) fs (mainDirOf filename)
      (linePassState filename lines).program_calls (linePassState filename lines) with
  | none =>
    rw [hauto] at hrun
    cases hrun
  | some s1 =>
    rw [hauto] at hrun
    simp only [Option.map_some', Option.some.injEq] at hrun
    obtain ⟨e1, e2, e3, e4, _⟩ :=
      auto_detect_calls_spec (fun p => analyze_file fuel fs p) fs (mainDirOf filename)
        (linePassState filename lines).program_calls (linePassState filename lines) s1 hauto
    have hro : resolvedOutcome (fun p => analyze_file fuel fs p) fs (mainDirOf filename) c
        = some (name, sub) := by
      unfold resolvedOutcome
      rw [hfind]
      dsimp only
      rw [hsub]
    have hok : resolvedOk (fun p => analyze_file fuel fs p) fs (mainDirOf filename) c
        = true := by
      unfold resolvedOk
      rw [hro]
      rfl
    have hmem_main : c ∈ s1.main_programs := by
      rw [e3]
      refine List.mem_append.mpr (Or.inr (List.mem_filter.mpr ⟨hc, ?_⟩))
      simp [hok, hc]
    have hnosub1 : Msg.subNotDefined c ∉ s1.warnings := by
      rw [e2]
      intro hmem
      rcases List.mem_append.mp hmem with h1 | h1
      · rcases linePassState_warn_shape filename lines _ h1 with ⟨a, v, h⟩ | ⟨v, h⟩ | ⟨ext, h⟩ <;>
          exact Msg.noConfusion h
      · obtain ⟨nm, m', hmm⟩ :=
          concatMap_resolvedWarns_shape (fun p => analyze_file fuel fs p) fs (mainDirOf filename)
            (linePassState filename lines).program_calls _ h1
        exact Msg.noConfusion hmm
    cases hrun
    refine ⟨rfl, ?_, ?_, ?_, ?_⟩
    · rw [(validate_frame s1).2.2.2.2.2.2.2.2.1]
      exact hmem_main
    · intro m hm
      rw [(validate_frame s1).2.2.2.2.2.2.1, e1]
      refine List.mem_append.mpr (Or.inr (mem_concatMap hc ?_))
      unfold resolvedErrs
      rw [hro]
      exact List.mem_map.mpr ⟨m, hm, rfl⟩
    · intro m hm
      obtain ⟨t, ht, _⟩ := validate_warnings_spec s1
      rw [ht]
      refine List.mem_append.mpr (Or.inl ?_)
      rw [e2]
      refine List.mem_append.mpr (Or.inr (mem_concatMap hc ?_))
      unfold resolvedWarns
      rw [hro]
      exact List.mem_map.mpr ⟨m, hm, rfl⟩
    · obtain ⟨t, ht, hsh⟩ := validate_warnings_spec s1
      rw [ht]
      intro hmem
      rcases List.mem_append.mp hmem with h1 | h1
      · exact hnosub1 h1
      · rcases hsh _ h1 with ⟨n, hn, hnot⟩ | ⟨n, hn⟩
        · injection hn with h'
          subst h'
          exact hnot hmem_main
        · exact Msg.noConfusion hn

/-- Witness for C4: with a sibling `O200.nc` next to the C5-style main file,
the call to 200 counts as found and the post-pass warning does not fire. -/
theorem C4_witness :
    (str "200") ∈ demoRes.2.main_programs ∧
    Msg.subNotDefined (str "200") ∉ demoRes.2.warnings := by
  have h := C4_claim 1 demoFs (str "prog.nc") (str "O200.nc") (str "200") demoLines demoRes
    demoSub rfl rfl (by decide) (by decide) rfl
  exact ⟨h.2.2.1, h.2.2.2.2.2⟩

/-- C10: the resolver loop treats every occurrence of a call number in the
Call Registry separately (duplicates included): the final errors and
warnings are the parent's followed by, per occurrence in order, the resolved
child's prefixed messages, and the Program Registry gets the call number
appended once per successfully resolved occurrence with no duplicate check
(the only membership test is the vacuous `call in self.program_calls`). -/
theorem C10_claim (fuel : Nat) (fs : Fs) (dir : List Char) (calls : List (List Char))
    (s s' : Checker)
    (h : auto_detect_calls (fun p => analyze_file fuel fs p) fs dir calls s = some s') :
    s'.errors = s.errors
      ++ concatMap (resolvedErrs (fun p => analyze_file fuel fs p) fs dir) calls ∧
    s'.warnings = s.warnings
      ++ concatMap (resolvedWarns (fun p => analyze_file fuel fs p) fs dir) calls ∧
    s'.main_programs = s.main_programs
      ++ calls.filter (fun c => resolvedOk (fun p => analyze_file fuel fs p) fs dir c
          && decide (c ∈ s.program_calls)) ∧
    s'.program_calls = s.program_calls := by
  obtain ⟨e1, e2, e3, e4, _⟩ :=
    auto_detect_calls_spec (fun p => analyze_file fuel fs p) fs dir calls s s' h
  exact ⟨e1, e2, e3, e4⟩

/-- Witness for C10: the same call occurring twice is resolved twice and its
number is appended twice, yielding a duplicated Program Registry. -/
theorem C10_witness :
    w10Res.errors = w10Start.errors
      ++ concatMap (resolvedErrs w10Child c7Fs (str ".")) w10Start.program_calls ∧
    w10Res.main_programs = w10Start.main_programs
      ++ w10Start.program_calls.filter
          (fun c => resolvedOk w10Child c7Fs (str ".") c && decide (c ∈ w10Start.program_calls)) ∧
    w10Res.main_programs = [str "200", str "200"] := by
  have h := C10_claim 1 c7Fs (str ".") w10Start.program_calls w10Start w10Res rfl
  exact ⟨h.1, h.2.2.1, by decide⟩

/-! ### Claim C8: the Position trace -/

theorem process_line_trace (ln : Nat) (l : List Char) (s : Checker) :
    (process_line ln l s).x_positions.length
      = s.x_positions.length
        + (if (!(strip l).isEmpty && mentionsXYZ (strip l)) = true then 1 else 0) ∧
    (process_line ln l s).y_positions.length
      = s.y_positions.length
        + (if (!(strip l).isEmpty && mentionsXYZ (strip l)) = true then 1 else 0) ∧
    (process_line ln l s).z_positions.length
      = s.z_positions.length
        + (if (!(strip l).isEmpty && mentionsXYZ (strip l)) = true then 1 else 0) := by
  unfold process_line
  dsimp only
  cases hne : (strip l).isEmpty with
  | true => simp [hne]
  | false =>
    rw [if_neg (by simp [hne])]
    cases hm : mentionsXYZ (strip l) with
    | false =>
      rw [if_neg (by simp [hm])]
      refine ⟨?_, ?_, ?_⟩
      · rw [(check_feed_rate_frame _ _).1, (check_line_frame _ _).1]
        simp [hne, hm]
      · rw [(check_feed_rate_frame _ _).2.1, (check_line_frame _ _).2.1]
        simp [hne, hm]
      · rw [(check_feed_rate_frame _ _).2.2.1, (check_line_frame _ _).2.2.1]
        simp [hne, hm]
    | true =>
      rw [if_pos rfl]
      refine ⟨?_, ?_, ?_⟩
      · rw [(check_feed_rate_frame _ _).1, (check_coordinates_fields _ _).2.2.2.1,
          (check_line_frame _ _).1]
        simp [hne, hm]
      · rw [(check_feed_rate_frame _ _).2.1, (check_coordinates_fields _ _).2.2.2.2.1,
          (check_line_frame _ _).2.1]
        simp [hne, hm]
      · rw [(check_feed_rate_frame _ _).2.2.1, (check_coordinates_fields _ _).2.2.2.2.2.1,
          (check_line_frame _ _).2.2.1]
        simp [hne, hm]

theorem process_lines_trace :
    ∀ (lines : List (List Char)) (n : Nat) (s : Checker),
      (process_lines n lines s).x_positions.length
        = s.x_positions.length
          + (lines.filter (fun l => !(strip l).isEmpty && mentionsXYZ (strip l))).length ∧
      (process_lines n lines s).y_positions.length
        = s.y_positions.length
          + (lines.filter (fun l => !(strip l).isEmpty && mentionsXYZ (strip l))).length ∧
      (process_lines n lines s).z_positions.length
        = s.z_positions.length
          + (lines.filter (fun l => !(strip l).isEmpty && mentionsXYZ (strip l))).length := by
  intro lines
  induction lines with
  | nil =>
    intro n s
    simp [process_lines]
  | cons raw rest ih =>
    intro n s
    obtain ⟨p1, p2, p3⟩ := process_line_trace n raw s
    obtain ⟨q1, q2, q3⟩ := ih (n + 1) (process_line n raw s)
    have e : process_lines n (raw :: rest) s
        = process_lines (n + 1) rest (process_line n raw s) := rfl
    refine ⟨?_, ?_, ?_⟩
    · rw [e, q1, p1]
      cases hcond : (!(strip raw).isEmpty && mentionsXYZ (strip raw)) <;>
          simp [List.filter_cons, hcond] <;> try omega
    · rw [e, q2, p2]
      cases hcond : (!(strip raw).isEmpty && mentionsXYZ (strip raw)) <;>
          simp [List.filter_cons, hcond] <;> try omega
    · rw [e, q3, p3]
      cases hcond : (!(strip raw).isEmpty && mentionsXYZ (strip raw)) <;>
          simp [List.filter_cons, hcond] <;> try omega

/-- C8: after analyzing a readable file, each Position trace has exactly one
entry per non-blank line that mentions at least one of X, Y, Z (lines
without any of these letters contribute nothing; subprogram analyses use
fresh checkers and do not touch the parent's trace). -/
theorem C8_claim (fuel : Nat) (fs : Fs) (filename : List Char) (lines : List (List Char))
    (res : Bool × Checker)
    (hread : fs filename = some lines)
    (hrun : analyze_file (fuel + 1) fs filename = some res) :
    res.2.x_positions.length
      = (lines.filter (fun l => !(strip l).isEmpty && mentionsXYZ (strip l))).length ∧
    res.2.y_positions.length
      = (lines.filter (fun l => !(strip l).isEmpty && mentionsXYZ (strip l))).length ∧
    res.2.z_positions.length
      = (lines.filter (fun l => !(strip l).isEmpty && mentionsXYZ (strip l))).length := by
  rw [analyze_file_unfold fuel fs filename lines hread] at hrun
  cases hauto : auto_detect_calls (fun p => analyze_file fuel fs p) fs (mainDirOf filename)
      (linePassState filename lines).program_calls (linePassState filename lines) with
  | none =>
    rw [hauto] at hrun
    cases hrun
  | some s1 =>
    rw [hauto] at hrun
    simp only [Option.map_some', Option.some.injEq] at hrun
    cases hrun
    obtain ⟨_, _, _, _, e5, e6, e7, _⟩ :=
      auto_detect_calls_spec (fun p => analyze_file fuel fs p) fs (mainDirOf filename)
        (linePassState filename lines).program_calls (linePassState filename lines) s1 hauto
    obtain ⟨t1, t2, t3⟩ := process_lines_trace lines 1 (check_file_format filename initChecker)
    refine ⟨?_, ?_, ?_⟩
    · rw [(validate_frame s1).1, e5]
      unfold linePassState
      rw [t1, (check_file_format_frame _ _).1]
      simp [initChecker]
    · rw [(validate_frame s1).2.1, e6]
      unfold linePassState
      rw [t2, (check_file_format_frame _ _).2.1]
      simp [initChecker]
    · rw [(validate_frame s1).2.2.1, e7]
      unfold linePassState
      rw [t3, (check_file_format_frame _ _).2.2.1]
      simp [initChecker]

/-- Witness for C8 on a concrete five-line file with two coordinate-bearing
lines. -/
theorem C8_witness :
    w8Res.2.x_positions.length
      = (w8Lines.filter (fun l => !(strip l).isEmpty && mentionsXYZ (strip l))).length ∧
    w8Res.2.y_positions.length
      = (w8Lines.filter (fun l => !(strip l).isEmpty && mentionsXYZ (strip l))).length ∧
    w8Res.2.z_positions.length
      = (w8Lines.filter (fun l => !(strip l).isEmpty && mentionsXYZ (strip l))).length :=
  C8_claim 0 w8Fs (str "t.nc") w8Lines w8Res rfl rfl

/-! ### Claim C6: the candidate list of the resolver -/

theorem try_names_first_hit (f : List Char → Option (Bool × Checker)) (fs : Fs)
    (dir call : List Char) (s : Checker) :
    ∀ (names : List (List Char)) (k : Nat) (hk : k < names.length),
      (∀ j (hj : j < k), fs (joinPath dir (names.get ⟨j, hj.trans hk⟩)) = none) →
      (fs (joinPath dir (names.get ⟨k, hk⟩))).isSome = true →
      try_names f fs dir call s names = resolve_candidate f dir call (names.get ⟨k, hk⟩) s := by
  intro names
  induction names with
  | nil =>
    intro k hk
    exact absurd hk (Nat.not_lt_zero k)
  | cons name rest ih =>
    intro k hk hbefore hex
    cases k with
    | zero =>
      have hex' : (fs (joinPath dir name)).isSome = true := hex
      show (if (fs (joinPath dir name)).isSome = true then resolve_candidate f dir call name s
          else try_names f fs dir call s rest) = _
      rw [if_pos hex']
      rfl
    | succ k' =>
      have h0 : fs (joinPath dir name) = none := hbefore 0 (Nat.succ_pos k')
      show (if (fs (joinPath dir name)).isSome = true then resolve_candidate f dir call name s
          else try_names f fs dir call s rest) = _
      rw [if_neg (by rw [h0]; simp)]
      exact ih k' (Nat.lt_of_succ_lt_succ hk)
        (fun j hj => hbefore (j + 1) (Nat.succ_lt_succ hj)) hex

/-- C6 counterexample: the resolver's candidate list for a call has six
entries, not eight. -/
theorem C6_counterexample :
    (possible_names (str "200")).length = 6 ∧
    ¬ (possible_names (str "200")).length = 8 := by
  decide

/-- C6 as amended: for each call number the resolver tries exactly the six
candidate filenames `O<n>.txt`, `O<n>.nc`, `o<n>.txt`, `o<n>.nc`, `<n>.txt`,
`<n>.nc`, in this fixed order (the bare-number form has no case variant);
the first existing file wins and the remaining candidates for that call are
skipped. -/
theorem C6_amended_claim (f : List Char → Option (Bool × Checker)) (fs : Fs)
    (dir call : List Char) (s : Checker) (k : Nat) (hk : k < (possible_names call).length)
    (hbefore : ∀ j (hj : j < k),
      fs (joinPath dir ((possible_names call).get ⟨j, hj.trans hk⟩)) = none)
    (hex : (fs (joinPath dir ((possible_names call).get ⟨k, hk⟩))).isSome = true) :
    possible_names call
      = [str "O" ++ call ++ str ".txt", str "O" ++ call ++ str ".nc",
         str "o" ++ call ++ str ".txt", str "o" ++ call ++ str ".nc",
         call ++ str ".txt", call ++ str ".nc"] ∧
    try_names f fs dir call s (possible_names call)
      = resolve_candidate f dir call ((possible_names call).get ⟨k, hk⟩) s :=
  ⟨rfl, try_names_first_hit f fs dir call s (possible_names call) k hk hbefore hex⟩

/-- Witness for C6: with only `O200.nc` existing, the first candidate
`O200.txt` is skipped and the second one wins. -/
theorem C6_witness :
    try_names (fun p => analyze_file 1 demoFs p) demoFs (str ".") (str "200") initChecker
        (possible_names (str "200"))
      = resolve_candidate (fun p => analyze_file 1 demoFs p) (str ".") (str "200")
          ((possible_names (str "200")).get ⟨1, by decide⟩) initChecker := by
  have h := C6_amended_claim (fun p => analyze_file 1 demoFs p) demoFs (str ".") (str "200")
    initChecker 1 (by decide)
    (fun j hj => by
      obtain rfl : j = 0 := Nat.lt_one_iff.mp hj
      show demoFs (joinPath (str ".") (str "O200.txt")) = none
      decide)
    (by decide)
  exact h.2

/-! ### Claim C7: set vs sequence semantics of the registries -/

theorem check_program_structure_nodup (l : List Char) (s : Checker)
    (h : s.main_programs.Nodup) : (check_program_structure l s).main_programs.Nodup := by
  rw [check_program_structure_mains]
  cases ho : o_program (strip (upper l)) with
  | none => exact h
  | some prog =>
    dsimp only
    by_cases hp : prog ∈ s.main_programs
    · rw [if_pos hp]
      exact h
    · rw [if_neg hp]
      refine List.Nodup.append h (List.nodup_singleton prog) ?_
      intro x hx hx'
      rw [List.mem_singleton.mp hx'] at hx
      exact hp hx

theorem process_line_nodup (ln : Nat) (l : List Char) (s : Checker)
    (h : s.main_programs.Nodup) : (process_line ln l s).main_programs.Nodup := by
  unfold process_line
  dsimp only
  split
  · exact h
  · rw [(check_feed_rate_frame _ _).2.2.2.2.2.2.2.1]
    have hcl : ∀ t : Checker, t.main_programs.Nodup →
        (check_line (strip l) t).2.main_programs.Nodup := by
      intro t ht
      rcases check_line_cases (strip l) t with hc | hc | hc <;> rw [hc]
      · exact ht
      · exact check_program_structure_nodup _ t ht
      · rw [(pushError_frame _ _).2.2.2.2.2.2.2.2.1]
        exact check_program_structure_nodup _ t ht
    split
    · rw [(check_coordinates_fields _ _).2.2.2.2.2.2.2.2.1]
      exact hcl _ h
    · exact hcl _ h

/-- C7 counterexample: with a main file that both defines `O200` and calls
`M98 P200`, and a sibling `O200.txt` present, cross-file resolution appends
the resolved number to the Program Registry without any duplicate check, so
the final registry holds "200" twice. -/
theorem C7_counterexample :
    (analyze_file 2 c7Fs (str "p.nc")).map (fun r => r.2.main_programs)
      = some [str "200", str "200"] ∧
    ¬ List.Nodup [str "200", str "200"] := by
  decide

/-- C7 as amended: during the per-line pass the Program Registry stays
duplicate-free (an `O` number is appended only when absent), and the Call
Registry records every `M98 P` occurrence in order, duplicates preserved;
however the Cross-File Resolver appends each successfully resolved call
number to the Program Registry with no duplicate check, so after resolution
the registry can contain duplicates. -/
theorem C7_amended_claim :
    (∀ ln l s, s.main_programs.Nodup → (process_line ln l s).main_programs.Nodup) ∧
    (∀ l s, (check_program_structure l s).program_calls
      = s.program_calls ++ (m98_call (strip (upper l))).toList) :=
  ⟨fun ln l s h => process_line_nodup ln l s h, fun l s => check_program_structure_calls l s⟩

/-- Witness for C7 as amended at concrete inputs. -/
theorem C7_witness :
    (process_line 1 (str "O5") initChecker).main_programs.Nodup ∧
    (check_program_structure (str "M98 P7") initChecker).program_calls
      = initChecker.program_calls ++ (m98_call (strip (upper (str "M98 P7")))).toList :=
  ⟨C7_amended_claim.1 1 (str "O5") initChecker (by decide),
   C7_amended_claim.2 (str "M98 P7") initChecker⟩

/-! ### Claim C9: termination of the unguarded recursion -/

theorem try_names_isSome (f : List Char → Option (Bool × Checker)) (fs : Fs)
    (dir call : List Char) (s : Checker) (names : List (List Char))
    (h : ∀ name, names.find? (fun nm => (fs (joinPath dir nm)).isSome) = some name →
      (f (joinPath dir name)).isSome = true) :
    (try_names f fs dir call s names).isSome = true := by
  rw [try_names_eq]
  cases hfind : names.find? (fun nm => (fs (joinPath dir nm)).isSome) with
  | none => rfl
  | some name =>
    dsimp only
    unfold resolve_candidate
    cases hf : f (joinPath dir name) with
    | none =>
      have := h name hfind
      rw [hf] at this
      cases this
    | some r => rfl

theorem auto_detect_isSome (f : List Char → Option (Bool × Checker)) (fs : Fs)
    (dir : List Char) :
    ∀ (calls : List (List Char)) (s : Checker),
      (∀ c ∈ calls, ∀ name,
          (possible_names c).find? (fun nm => (fs (joinPath dir nm)).isSome) = some name →
          (f (joinPath dir name)).isSome = true) →
      (auto_detect_calls f fs dir calls s).isSome = true := by
  intro calls
  induction calls with
  | nil => intro s h; rfl
  | cons c rest ih =>
    intro s h
    have h1 : (try_names f fs dir c s (possible_names c)).isSome = true :=
      try_names_isSome f fs dir c s _ (fun name hf => h c (List.mem_cons_self c rest) name hf)
    cases ht : try_names f fs dir c s (possible_names c) with
    | none =>
      rw [ht] at h1
      cases h1
    | some s1 =>
      have e : auto_detect_calls f fs dir (c :: rest) s
          = (try_names f fs dir c s (possible_names c)).bind
            (fun x => auto_detect_calls f fs dir rest x) := rfl
      rw [e, ht, Option.some_bind]
      exact ih s1 (fun c' hc' name hf => h c' (List.mem_cons_of_mem c hc') name hf)

theorem analyze_file_acyclic (fs : Fs) (rank : List Char → Nat)
    (hacyc : ∀ path lines c name, fs path = some lines →
      c ∈ (linePassState path lines).program_calls →
      (possible_names c).find?
        (fun nm => (fs (joinPath (mainDirOf path) nm)).isSome) = some name →
      rank (joinPath (mainDirOf path) name) < rank path) :
    ∀ (n : Nat) (path : List Char), rank path < n → (analyze_file n fs path).isSome = true := by
  intro n
  induction n with
  | zero =>
    intro path h
    exact absurd h (Nat.not_lt_zero _)
  | succ m ih =>
    intro path hpath
    cases hread : fs path with
    | none =>
      have e : analyze_file (m + 1) fs path
          = some (false,
              pushError (check_file_format path initChecker) (Msg.fileNotFound path)) := by
        rw [analyze_file, hread]
      rw [e]
      rfl
    | some lines =>
      rw [analyze_file_unfold m fs path lines hread]
      have hsome : (auto_detect_calls (fun p => analyze_file m fs p) fs (mainDirOf path)
          (linePassState path lines).program_calls (linePassState path lines)).isSome = true := by
        refine auto_detect_isSome (fun p => analyze_file m fs p) fs (mainDirOf path)
          (linePassState path lines).program_calls (linePassState path lines) ?_
        intro c hc name hfind
        have hr := hacyc path lines c name hread hc hfind
        exact ih _ (Nat.lt_of_lt_of_le hr (Nat.lt_succ_iff.mp hpath))
      cases hauto : auto_detect_calls (fun p => analyze_file m fs p) fs (mainDirOf path)
          (linePassState path lines).program_calls (linePassState path lines) with
      | none =>
        rw [hauto] at hsome
        cases hsome
      | some s1 => rfl

theorem auto_detect_head_none (f : List Char → Option (Bool × Checker)) (fs : Fs)
    (dir c : List Char) (rest : List (List Char)) (s : Checker)
    (h : try_names f fs dir c s (possible_names c) = none) :
    auto_detect_calls f fs dir (c :: rest) s = none := by
  show (try_names f fs dir c s (possible_names c)).bind
    (fun x => auto_detect_calls f fs dir rest x) = none
  rw [h]
  rfl

theorem try_names_none_of_find (f : List Char → Option (Bool × Checker)) (fs : Fs)
    (dir c : List Char) (s : Checker) (name : List Char)
    (hfind : (possible_names c).find? (fun nm => (fs (joinPath dir nm)).isSome) = some name)
    (hchild : f (joinPath dir name) = none) :
    try_names f fs dir c s (possible_names c) = none := by
  rw [try_names_eq, hfind]
  dsimp only
  unfold resolve_candidate
  rw [hchild]
  rfl

theorem analyze_none_of_auto_none (fuel : Nat) (fs : Fs) (filename : List Char)
    (lines : List (List Char)) (hread : fs filename = some lines)
    (h : auto_detect_calls (fun p => analyze_file fuel fs p) fs (mainDirOf filename)
        (linePassState filename lines).program_calls (linePassState filename lines) = none) :
    analyze_file (fuel + 1) fs filename = none := by
  rw [analyze_file_unfold fuel fs filename lines hread, h]
  rfl

theorem cyc_analyze_none :
    ∀ fuel : Nat, analyze_file fuel cycFs cycMain = none ∧
      analyze_file fuel cycFs (str "./O2.txt") = none := by
  intro fuel
  induction fuel with
  | zero => exact ⟨rfl, rfl⟩
  | succ m ih =>
    refine ⟨?_, ?_⟩
    · refine analyze_none_of_auto_none m cycFs cycMain [str "O1", str "M98 P2"] rfl ?_
      rw [show (linePassState cycMain [str "O1", str "M98 P2"]).program_calls
        = [str "2"] from by decide]
      refine auto_detect_head_none _ _ _ _ _ _ ?_
      refine try_names_none_of_find _ _ _ _ _ (str "O2.txt") (by decide) ?_
      show analyze_file m cycFs (joinPath (mainDirOf cycMain) (str "O2.txt")) = none
      rw [show joinPath (mainDirOf cycMain) (str "O2.txt") = str "./O2.txt" from by decide]
      exact ih.2
    · refine analyze_none_of_auto_none m cycFs (str "./O2.txt") [str "O2", str "M98 P1"] rfl ?_
      rw [show (linePassState (str "./O2.txt") [str "O2", str "M98 P1"]).program_calls
        = [str "1"] from by decide]
      refine auto_detect_head_none _ _ _ _ _ _ ?_
      refine try_names_none_of_find _ _ _ _ _ (str "O1.txt") (by decide) ?_
      show analyze_file m cycFs (joinPath (mainDirOf (str "./O2.txt")) (str "O1.txt")) = none
      rw [show joinPath (mainDirOf (str "./O2.txt")) (str "O1.txt") = str "./O1.txt" from by decide]
      exact ih.1

/-- C9: the recursion of `analyze_file` into resolved subprogram files has
no visited-path guard.  First half: whenever the resolved call graph is
acyclic — witnessed by a rank function that strictly decreases from a file
to every subprogram file its calls resolve to — analysis terminates (enough
fuel makes it return a result).  Second half: on the concrete cyclic
two-file input `cycFs` (`O1.txt` calls program 2, `O2.txt` calls program 1,
each resolving to the other) the analysis exhausts any amount of fuel, i.e.
it does not terminate. -/
theorem C9_claim :
    (∀ (fs : Fs) (rank : List Char → Nat),
      (∀ path lines c name, fs path = some lines →
        c ∈ (linePassState path lines).program_calls →
        (possible_names c).find?
          (fun nm => (fs (joinPath (mainDirOf path) nm)).isSome) = some name →
        rank (joinPath (mainDirOf path) name) < rank path) →
      ∀ file, (analyze_file (rank file + 1) fs file).isSome = true) ∧
    (∀ fuel, analyze_file fuel cycFs cycMain = none) :=
  ⟨fun fs rank hacyc file =>
    analyze_file_acyclic fs rank hacyc (rank file + 1) file (Nat.lt_succ_self _),
   fun fuel => (cyc_analyze_none fuel).1⟩

/-- Witness for C9: a single call-free file terminates with rank 0, and the
cyclic instance returns no result at fuel 3. -/
theorem C9_witness :
    (analyze_file 1 oneFs (str "m.nc")).isSome = true ∧
    analyze_file 3 cycFs cycMain = none := by
  constructor
  · refine C9_claim.1 oneFs (fun _ => 0) ?_ (str "m.nc")
    intro path lines c name hf hc hfind
    by_cases hp : path = str "m.nc"
    · subst hp
      rw [show oneFs (str "m.nc") = some [str "G1 X1"] from rfl] at hf
      cases hf
      rw [show (linePassState (str "m.nc") [str "G1 X1"]).program_calls = [] from by decide] at hc
      cases hc
    · rw [show oneFs path = (if path = str "m.nc" then some [str "G1 X1"] else none) from rfl,
        if_neg hp] at hf
      cases hf
  · exact C9_claim.2 3

end GCodeSpec
